import Mathlib

set_option maxHeartbeats 1000000
set_option maxRecDepth 4000

/-!
Shallow embedding of the benchmark library's measurement core: the
comparison engine, the per-thread timer, the statistics reducers, the
adaptive iteration-count controller, the multi-threaded result merge, the
statistics aggregation pass and the complexity curve-fitting engine.
Doubles are modelled as exact rationals (`ℚ`); the curve-fitting engine,
whose arithmetic involves `log₂` and a square root, is modelled over `ℝ`.
Assertion failures (`CHECK`) are modelled as `Option.none`.
-/

namespace Benchmark

/-- Machine epsilon of an IEEE double, `std::numeric_limits<double>::epsilon()`,
as an exact rational.  Used by `IsZero` in `utility.h`. -/
def dblEpsilon : ℚ := 1 / 2 ^ 52

/-- Embedding of `IsZero` from `utility.h`: `std::abs(n) < epsilon`. -/
def IsZero (n : ℚ) : Bool := decide (|n| < dblEpsilon)

/-- Embedding of `CalculateChange` from the comparison engine:
zero/zero gives 0, zero old gives `(New-Old)/((Old+New)/2)`, otherwise
`(New-Old)/|Old|`. -/
def CalculateChange (Old New : ℚ) : ℚ :=
  if IsZero Old && IsZero New then 0
  else if IsZero Old then (New - Old) / ((Old + New) / 2)
  else (New - Old) / |Old|

/-- Embedding of the per-thread stopwatch `ThreadTimer`.  Clock readings are
passed in explicitly (the C++ reads `ChronoClockNow()` / `ThreadCPUUsage()`). -/
structure ThreadTimer where
  running : Bool := false
  startRealTime : ℚ := 0
  startCpuTime : ℚ := 0
  realTimeUsed : ℚ := 0
  cpuTimeUsed : ℚ := 0
  manualTimeUsed : ℚ := 0
  deriving DecidableEq, Repr

/-- Embedding of `ThreadTimer::StartTimer`.  The source body is
`running_ = true; start_real_time_ = ...; start_cpu_time_ = ...;` with no
`CHECK`, so the operation never fails (`none` would model a failed
assertion). -/
def ThreadTimer.startTimer (t : ThreadTimer) (nowReal nowCpu : ℚ) :
    Option ThreadTimer :=
  some { t with running := true, startRealTime := nowReal,
                startCpuTime := nowCpu }

/-- Embedding of `ThreadTimer::StopTimer`: `CHECK(running_)`, then adds the
elapsed wall-clock slice and the non-negative-clamped elapsed CPU slice. -/
def ThreadTimer.stopTimer (t : ThreadTimer) (nowReal nowCpu : ℚ) :
    Option ThreadTimer :=
  if t.running then
    some { t with running := false,
                  realTimeUsed := t.realTimeUsed + (nowReal - t.startRealTime),
                  cpuTimeUsed :=
                    t.cpuTimeUsed + max (nowCpu - t.startCpuTime) 0 }
  else none

/-- Embedding of the accessor `ThreadTimer::real_time_used`:
`CHECK(!running_)`. -/
def ThreadTimer.readRealTime (t : ThreadTimer) : Option ℚ :=
  if t.running then none else some t.realTimeUsed

/-- Embedding of the accessor `ThreadTimer::cpu_time_used`:
`CHECK(!running_)`. -/
def ThreadTimer.readCpuTime (t : ThreadTimer) : Option ℚ :=
  if t.running then none else some t.cpuTimeUsed

/-- Embedding of the accessor `ThreadTimer::manual_time_used`:
`CHECK(!running_)`. -/
def ThreadTimer.readManualTime (t : ThreadTimer) : Option ℚ :=
  if t.running then none else some t.manualTimeUsed

/-- Embedding of `StatisticsSum` from the statistics engine. -/
def StatisticsSum (v : List ℚ) : ℚ := v.foldl (· + ·) 0

/-- Embedding of `StatisticsMean`: 0 on an empty vector, otherwise the sum
multiplied by the reciprocal of the length. -/
def StatisticsMean (v : List ℚ) : ℚ :=
  if v.length = 0 then 0 else StatisticsSum v * (1 / v.length)

/-- Embedding of `StatisticsMedian`.  `std::partial_sort_copy` into a buffer
of `1 + n/2` slots is the first `1 + n/2` elements of the sorted vector;
`partial.back()` and the two last slots are read through `List.getD`. -/
def StatisticsMedian (v : List ℚ) : ℚ :=
  if v.length < 3 then StatisticsMean v
  else
    let psorted := (v.insertionSort (· ≤ ·)).take (1 + v.length / 2)
    if v.length % 2 = 1 then psorted.getD (psorted.length - 1) 0
    else
      (psorted.getD (psorted.length - 2) 0 +
        psorted.getD (psorted.length - 1) 0) / 2

end Benchmark

namespace Benchmark

lemma getD_take_sorted (v : List ℚ) (i : ℕ) (hi : i < 1 + v.length / 2) :
    ((v.insertionSort (· ≤ ·)).take (1 + v.length / 2)).getD i 0 =
      (v.insertionSort (· ≤ ·)).getD i 0 := by
  simp [List.getD_eq_getElem?_getD, List.getElem?_take, hi]

lemma length_take_sorted (v : List ℚ) (h : 2 ≤ v.length) :
    ((v.insertionSort (· ≤ ·)).take (1 + v.length / 2)).length =
      1 + v.length / 2 := by
  simp only [List.length_take, List.length_insertionSort]
  omega

/-- C6: the median reducer returns the mean for any input of fewer than 3
samples (`[5] ↦ 5`, `[] ↦ 0`), the middle element of the sorted vector for
any odd-sized input (`[3,1,2] ↦ 2`), and the average of the two central
elements for any even-sized input (`[4,1,3,2] ↦ 5/2`). -/
theorem median_spec :
    (∀ v : List ℚ, v.length < 3 → StatisticsMedian v = StatisticsMean v) ∧
    StatisticsMedian [5] = 5 ∧ StatisticsMedian [] = 0 ∧
    StatisticsMedian [3, 1, 2] = 2 ∧ StatisticsMedian [4, 1, 3, 2] = 5 / 2 ∧
    (∀ v : List ℚ, 3 ≤ v.length → v.length % 2 = 1 →
      StatisticsMedian v = (v.insertionSort (· ≤ ·)).getD (v.length / 2) 0) ∧
    (∀ v : List ℚ, 2 ≤ v.length → v.length % 2 = 0 →
      StatisticsMedian v =
        ((v.insertionSort (· ≤ ·)).getD (v.length / 2 - 1) 0 +
          (v.insertionSort (· ≤ ·)).getD (v.length / 2) 0) / 2) := by
  refine ⟨?_, ?_, ?_, ?_, ?_, ?_, ?_⟩
  · intro v h
    simp only [StatisticsMedian]
    rw [if_pos h]
  · norm_num [StatisticsMedian, StatisticsMean, StatisticsSum]
  · norm_num [StatisticsMedian, StatisticsMean, StatisticsSum]
  · norm_num [StatisticsMedian, StatisticsMean, StatisticsSum,
      List.insertionSort, List.orderedInsert]
  · norm_num [StatisticsMedian, StatisticsMean, StatisticsSum,
      List.insertionSort, List.orderedInsert]
  · intro v h3 hodd
    simp only [StatisticsMedian]
    rw [if_neg (by omega), if_pos hodd, length_take_sorted v (by omega)]
    have h1 : 1 + v.length / 2 - 1 = v.length / 2 := by omega
    rw [h1, getD_take_sorted v _ (by omega)]
  · intro v h2 heven
    by_cases hlt : v.length < 3
    · have hl2 : v.length = 2 := by omega
      obtain ⟨a, b, rfl⟩ := List.length_eq_two.mp hl2
      simp only [StatisticsMedian]
      rw [if_pos hlt]
      by_cases hab : a ≤ b
      · simp [StatisticsMean, StatisticsSum, List.insertionSort,
          List.orderedInsert, hab]
        ring
      · simp [StatisticsMean, StatisticsSum, List.insertionSort,
          List.orderedInsert, hab]
        ring
    · simp only [StatisticsMedian]
      rw [if_neg hlt, if_neg (by omega), length_take_sorted v (by omega)]
      have ha : 1 + v.length / 2 - 2 = v.length / 2 - 1 := by omega
      have hb : 1 + v.length / 2 - 1 = v.length / 2 := by omega
      rw [ha, hb, getD_take_sorted v _ (by omega), getD_take_sorted v _ (by omega)]

/-- Witness for `median_spec`: the hypothesised clauses evaluated on
concrete inputs. -/
theorem median_spec_witness :
    StatisticsMedian [7, 9] = StatisticsMean [7, 9] ∧
    StatisticsMedian [3, 1, 2] =
      (([3, 1, 2] : List ℚ).insertionSort (· ≤ ·)).getD 1 0 ∧
    StatisticsMedian [4, 1, 3, 2] =
      ((([4, 1, 3, 2] : List ℚ).insertionSort (· ≤ ·)).getD 1 0 +
        (([4, 1, 3, 2] : List ℚ).insertionSort (· ≤ ·)).getD 2 0) / 2 :=
  ⟨median_spec.1 [7, 9] (by norm_num),
   median_spec.2.2.2.2.2.1 [3, 1, 2] (by norm_num) (by norm_num),
   median_spec.2.2.2.2.2.2 [4, 1, 3, 2] (by norm_num) (by norm_num)⟩

/-- C7: `CalculateChange` returns `(New-Old)/|Old|` when `Old` is non-zero
(within epsilon), `0` when both arguments are zero, and
`(New-Old)/((Old+New)/2)` when only `Old` is zero; in particular
`CalculateChange 10 15 = 1/2`, `CalculateChange 0 0 = 0` and
`CalculateChange 0 10 = 2` (finite). -/
theorem calculateChange_spec :
    (∀ Old New : ℚ, IsZero Old = false →
      CalculateChange Old New = (New - Old) / |Old|) ∧
    (∀ Old New : ℚ, IsZero Old = true → IsZero New = true →
      CalculateChange Old New = 0) ∧
    (∀ Old New : ℚ, IsZero Old = true → IsZero New = false →
      CalculateChange Old New = (New - Old) / ((Old + New) / 2)) ∧
    CalculateChange 10 15 = 1 / 2 ∧
    CalculateChange 0 0 = 0 ∧
    CalculateChange 0 10 = 2 := by
  refine ⟨?_, ?_, ?_, ?_, ?_, ?_⟩
  · intro Old New h; simp [CalculateChange, h]
  · intro Old New h1 h2; simp [CalculateChange, h1, h2]
  · intro Old New h1 h2; simp [CalculateChange, h1, h2]
  · norm_num [CalculateChange, IsZero, dblEpsilon]
  · norm_num [CalculateChange, IsZero, dblEpsilon]
  · norm_num [CalculateChange, IsZero, dblEpsilon]

/-- Witness for `calculateChange_spec`: the hypothesised clauses evaluated on
concrete inputs. -/
theorem calculateChange_spec_witness :
    CalculateChange 10 15 = (15 - 10) / |(10 : ℚ)| ∧
    CalculateChange 0 0 = 0 ∧
    CalculateChange 0 10 = (10 - 0) / ((0 + 10) / 2) :=
  ⟨calculateChange_spec.1 10 15 (by norm_num [IsZero, dblEpsilon]),
   calculateChange_spec.2.1 0 0 (by norm_num [IsZero, dblEpsilon])
     (by norm_num [IsZero, dblEpsilon]),
   calculateChange_spec.2.2.1 0 10 (by norm_num [IsZero, dblEpsilon])
     (by norm_num [IsZero, dblEpsilon])⟩

/-- C8 counterexample: calling `StartTimer` on an already-running
`ThreadTimer` does not fail an assertion; the source body contains no
`CHECK` and simply overwrites the start timestamps. -/
theorem startTimer_running_counterexample :
    ThreadTimer.startTimer
        { running := true, startRealTime := 0, startCpuTime := 0,
          realTimeUsed := 0, cpuTimeUsed := 0, manualTimeUsed := 0 } 1 2 =
      some { running := true, startRealTime := 1, startCpuTime := 2,
             realTimeUsed := 0, cpuTimeUsed := 0, manualTimeUsed := 0 } := rfl

/-- C8 amended: `StartTimer` never fails, even on a running timer — it sets
`running` and overwrites the start timestamps; the running-state assertions
live in `StopTimer` (requires running) and in the accessors (require
stopped). -/
theorem startTimer_total_spec :
    (∀ (t : ThreadTimer) (nowReal nowCpu : ℚ),
      t.startTimer nowReal nowCpu =
        some { t with running := true, startRealTime := nowReal,
                      startCpuTime := nowCpu }) ∧
    (∀ (t : ThreadTimer) (nowReal nowCpu : ℚ), t.running = false →
      t.stopTimer nowReal nowCpu = none) ∧
    (∀ t : ThreadTimer, t.running = true → t.readRealTime = none) := by
  refine ⟨fun t a b => rfl, ?_, ?_⟩
  · intro t a b h; simp [ThreadTimer.stopTimer, h]
  · intro t h; simp [ThreadTimer.readRealTime, h]

/-- Witness for `startTimer_total_spec`: the hypothesised clauses evaluated
on concrete timers. -/
theorem startTimer_total_spec_witness :
    ThreadTimer.startTimer {} 3 4 =
      some { running := true, startRealTime := 3, startCpuTime := 4 } ∧
    ThreadTimer.stopTimer {} 1 1 = none ∧
    ThreadTimer.readRealTime { running := true } = none :=
  ⟨startTimer_total_spec.1 {} 3 4,
   startTimer_total_spec.2.1 {} 1 1 rfl,
   startTimer_total_spec.2.2 { running := true } rfl⟩

end Benchmark

namespace Benchmark

/-- Embedding of the constant `kMaxIterations`, the hard iteration ceiling. -/
def kMaxIterations : ℕ := 1000000000

/-- Inputs of one accept-or-retry decision of `RunSingleBenchmarkImp`:
the measured attempt (after per-thread adjustment) together with the
per-instance configuration the decision consults. -/
structure AttemptState where
  repetitionNum : ℕ
  hasExplicitIterationCount : Bool
  hasError : Bool
  iters : ℕ
  seconds : ℚ
  realTimeUsed : ℚ
  minTime : ℚ
  useManualTime : Bool
  deriving DecidableEq, Repr

/-- Embedding of the `should_report` condition of `RunSingleBenchmarkImp`. -/
def shouldReport (s : AttemptState) : Bool :=
  decide (s.repetitionNum > 0) || s.hasExplicitIterationCount || s.hasError ||
    decide (s.iters ≥ kMaxIterations) || decide (s.seconds ≥ s.minTime) ||
    (decide (s.realTimeUsed ≥ 5 * s.minTime) && !s.useManualTime)

/-- Embedding of the retry-size computation of `RunSingleBenchmarkImp`:
`multiplier = min_time * 1.4 / max(seconds, 1e-9)`, capped at 10 unless
`seconds / min_time > 0.1`, replaced by 2 when at most 1, then
`iters = int(max(multiplier * iters, iters + 1.0)` clamped to the ceiling
`+ 0.5)`. -/
def computeNextIters (iters : ℕ) (seconds minTime : ℚ) : ℕ :=
  let multiplier := minTime * 1.4 / max seconds 1e-9
  let multiplier :=
    if seconds / minTime > 0.1 then multiplier else min 10 multiplier
  let multiplier := if multiplier ≤ 1 then 2 else multiplier
  let nextIters : ℚ := max (multiplier * iters) (iters + 1)
  let nextIters :=
    if nextIters > (kMaxIterations : ℚ) then (kMaxIterations : ℚ) else nextIters
  (⌊nextIters + 0.5⌋).toNat

/-- Outcome of one accept-or-retry step of the iteration-count controller:
either the attempt is accepted (a run record is emitted and the repetition
advances) or the same repetition is retried at a new iteration count. -/
inductive StepResult where
  | accept (iters : ℕ)
  | retry (nextIters : ℕ)
  deriving DecidableEq, Repr

/-- Embedding of one iteration of the controller's inner `for (;;)` loop:
accept when `should_report` holds, otherwise retry with the recomputed
iteration count. -/
def controllerStep (s : AttemptState) : StepResult :=
  if shouldReport s then .accept s.iters
  else .retry (computeNextIters s.iters s.seconds s.minTime)

lemma roundClamp_progress (iters : ℕ) (m : ℚ) (h : iters < kMaxIterations) :
    iters <
      (⌊(if max (m * iters) ((iters : ℚ) + 1) > (kMaxIterations : ℚ)
            then (kMaxIterations : ℚ)
            else max (m * iters) ((iters : ℚ) + 1)) + 0.5⌋).toNat ∧
    (⌊(if max (m * iters) ((iters : ℚ) + 1) > (kMaxIterations : ℚ)
          then (kMaxIterations : ℚ)
          else max (m * iters) ((iters : ℚ) + 1)) + 0.5⌋).toNat ≤
      kMaxIterations := by
  set nextQ := max (m * iters) ((iters : ℚ) + 1) with hnq
  have h1 : ((iters : ℚ) + 1) ≤ nextQ := le_max_right _ _
  by_cases hc : nextQ > (kMaxIterations : ℚ)
  · rw [if_pos hc]
    have hfk : ⌊((kMaxIterations : ℕ) : ℚ) + 0.5⌋ = (kMaxIterations : ℤ) := by
      rw [Int.floor_eq_iff]
      constructor <;> push_cast <;> norm_num
    rw [hfk]
    constructor
    · rw [Int.lt_toNat]; exact_mod_cast h
    · rw [Int.toNat_le]
  · rw [if_neg hc]
    push_neg at hc
    constructor
    · rw [Int.lt_toNat]
      have hle : ((iters : ℤ) + 1) ≤ ⌊nextQ + 0.5⌋ := by
        rw [Int.le_floor]; push_cast; linarith
      omega
    · rw [Int.toNat_le]
      have hlt : ⌊nextQ + 0.5⌋ < (kMaxIterations : ℤ) + 1 := by
        rw [Int.floor_lt]; push_cast; linarith
      omega

lemma computeNextIters_progress (iters : ℕ) (seconds minTime : ℚ)
    (h : iters < kMaxIterations) :
    iters < computeNextIters iters seconds minTime ∧
      computeNextIters iters seconds minTime ≤ kMaxIterations := by
  simp only [computeNextIters]
  exact roundClamp_progress iters _ h

end Benchmark

namespace Benchmark

/-- C1: the controller accepts an attempt (emitting its run record at the
attempted iteration count) exactly when the repetition index is positive, an
explicit iteration count was requested, an error occurred, the iteration
count reached the 1,000,000,000 ceiling, elapsed time on the configured
basis reached the minimum run time, or elapsed real time reached five times
the minimum run time with a non-manual timing basis; otherwise it retries
the same repetition at a strictly larger iteration count. -/
theorem controller_accept_iff (s : AttemptState) :
    (controllerStep s = StepResult.accept s.iters ↔
      0 < s.repetitionNum ∨ s.hasExplicitIterationCount = true ∨
      s.hasError = true ∨ kMaxIterations ≤ s.iters ∨ s.minTime ≤ s.seconds ∨
      (5 * s.minTime ≤ s.realTimeUsed ∧ s.useManualTime = false)) ∧
    (¬(0 < s.repetitionNum ∨ s.hasExplicitIterationCount = true ∨
        s.hasError = true ∨ kMaxIterations ≤ s.iters ∨ s.minTime ≤ s.seconds ∨
        (5 * s.minTime ≤ s.realTimeUsed ∧ s.useManualTime = false)) →
      controllerStep s =
        StepResult.retry (computeNextIters s.iters s.seconds s.minTime) ∧
      s.iters < computeNextIters s.iters s.seconds s.minTime) := by
  have hiff : shouldReport s = true ↔
      (0 < s.repetitionNum ∨ s.hasExplicitIterationCount = true ∨
        s.hasError = true ∨ kMaxIterations ≤ s.iters ∨ s.minTime ≤ s.seconds ∨
        (5 * s.minTime ≤ s.realTimeUsed ∧ s.useManualTime = false)) := by
    simp only [shouldReport, Bool.or_eq_true, Bool.and_eq_true,
      decide_eq_true_eq, Bool.not_eq_true', ge_iff_le, gt_iff_lt]
    tauto
  constructor
  · by_cases hr : shouldReport s = true
    · rw [controllerStep, if_pos hr]
      simpa using hiff.mp hr
    · rw [controllerStep, if_neg hr]
      simp only [reduceCtorEq, false_iff]
      exact fun hP => hr (hiff.mpr hP)
  · intro hP
    have hr : ¬ shouldReport s = true := fun h => hP (hiff.mp h)
    rw [controllerStep, if_neg hr]
    refine ⟨rfl, ?_⟩
    have hceil : s.iters < kMaxIterations := by
      rcases Nat.lt_or_ge s.iters kMaxIterations with h | h
      · exact h
      · exact absurd (Or.inr (Or.inr (Or.inr (Or.inl h)))) hP
    exact (computeNextIters_progress s.iters s.seconds s.minTime hceil).1

/-- Witness for `controller_accept_iff`: a concrete under-target attempt is
retried at a strictly larger iteration count. -/
theorem controller_accept_iff_witness :
    controllerStep
        { repetitionNum := 0, hasExplicitIterationCount := false,
          hasError := false, iters := 1, seconds := 0, realTimeUsed := 0,
          minTime := 1 / 2, useManualTime := false } =
      StepResult.retry (computeNextIters 1 0 (1 / 2)) ∧
    1 < computeNextIters 1 0 (1 / 2) :=
  (controller_accept_iff
      { repetitionNum := 0, hasExplicitIterationCount := false,
        hasError := false, iters := 1, seconds := 0, realTimeUsed := 0,
        minTime := 1 / 2, useManualTime := false }).2
    (by norm_num [kMaxIterations])

end Benchmark

namespace Benchmark

/-- Retry rule exactly as the claim words it: the multiplier is applied
uncapped when the attempt consumed at least 10% of the minimum run time
(otherwise capped at 10), then floored at 2, and the next count is
`max(multiplier * iters, iters + 1)` clamped to the ceiling (with the same
round-to-nearest conversion as the code, so the outputs are comparable). -/
def claimNextIters (iters : ℕ) (seconds minTime : ℚ) : ℕ :=
  let multiplier := minTime * 1.4 / max seconds 1e-9
  let multiplier :=
    if minTime / 10 ≤ seconds then multiplier else min 10 multiplier
  let multiplier := max multiplier 2
  (⌊min (max (multiplier * iters) (iters + 1)) (kMaxIterations : ℚ) + 0.5⌋).toNat

/-- Retry rule as the amended claim words it: identical to the claim's rule
except that the uncapped branch requires consuming strictly more than 10% of
the minimum run time, and the multiplier is replaced by 2 only when it is at
most 1 (no general floor at 2). -/
def amendedNextIters (iters : ℕ) (seconds minTime : ℚ) : ℕ :=
  let multiplier := minTime * 1.4 / max seconds 1e-9
  let multiplier :=
    if minTime / 10 < seconds then multiplier else min 10 multiplier
  let multiplier := if multiplier ≤ 1 then 2 else multiplier
  (⌊min (max (multiplier * iters) (iters + 1)) (kMaxIterations : ℚ) + 0.5⌋).toNat

/-- C3 counterexample: at `min_time = 1`, elapsed `0.8` and iteration count
100, the code's multiplier is 1.75 — above 1, so it is not replaced — and
the next iteration count is 175, while the claim's rule (multiplier floored
at 2) yields 200. -/
theorem nextIters_claim_counterexample :
    computeNextIters 100 (4 / 5) 1 = 175 ∧
    claimNextIters 100 (4 / 5) 1 = 200 ∧ (175 : ℕ) ≠ 200 := by
  refine ⟨?_, ?_, by norm_num⟩
  · simp only [computeNextIters]
    norm_num [max_def, min_def, kMaxIterations]
    rfl
  · simp only [claimNextIters]
    norm_num [max_def, min_def, kMaxIterations]
    rfl

lemma ite_gt_clamp (a k : ℚ) : (if a > k then k else a) = min a k := by
  rcases le_or_lt a k with h | h
  · rw [if_neg (not_lt.mpr h), min_eq_left h]
  · rw [if_pos h, min_eq_right h.le]

/-- C3 amended: for positive minimum run time the code's retry computation
matches the amended rule — multiplier `minTime * 1.4 / max(elapsed, 1e-9)`,
capped at 10 unless the attempt consumed strictly more than 10% of minTime,
replaced by 2 only when at most 1, next count
`max(multiplier * iters, iters + 1)` clamped to the 1,000,000,000 ceiling —
and every retry strictly increases the iteration count while staying at or
below the ceiling. -/
theorem nextIters_amended_spec :
    (∀ (iters : ℕ) (seconds minTime : ℚ), 0 < minTime →
      computeNextIters iters seconds minTime =
        amendedNextIters iters seconds minTime) ∧
    (∀ (iters : ℕ) (seconds minTime : ℚ), iters < kMaxIterations →
      iters < computeNextIters iters seconds minTime ∧
        computeNextIters iters seconds minTime ≤ kMaxIterations) := by
  constructor
  · intro iters seconds minTime hmt
    have hsig : (seconds / minTime > 0.1) ↔ (minTime / 10 < seconds) := by
      rw [gt_iff_lt, lt_div_iff hmt, div_lt_iff (by norm_num : (0 : ℚ) < 10)]
      constructor <;> intro h <;> linarith
    simp only [computeNextIters, amendedNextIters, hsig, ite_gt_clamp]
  · exact computeNextIters_progress

/-- Witness for `nextIters_amended_spec`: the hypothesised clauses evaluated
at concrete inputs. -/
theorem nextIters_amended_spec_witness :
    computeNextIters 100 (4 / 5) 1 = amendedNextIters 100 (4 / 5) 1 ∧
    1 < computeNextIters 1 0 (1 / 2) ∧
    computeNextIters 1 0 (1 / 2) ≤ kMaxIterations :=
  ⟨nextIters_amended_spec.1 100 (4 / 5) 1 (by norm_num),
   (nextIters_amended_spec.2 1 0 (1 / 2) (by norm_num [kMaxIterations])).1,
   (nextIters_amended_spec.2 1 0 (1 / 2) (by norm_num [kMaxIterations])).2⟩

end Benchmark

namespace Benchmark

/-- Contribution of one worker thread to the shared attempt result: its
timer's accumulated times and its `State` counters, as merged by
`RunInThread`. -/
structure ThreadResult where
  cpuTimeUsed : ℚ
  realTimeUsed : ℚ
  manualTimeUsed : ℚ
  bytesProcessed : ℤ
  itemsProcessed : ℤ
  complexityN : ℤ
  deriving DecidableEq, Repr

/-- Embedding of the consolidated `ThreadManager::Result` accumulator. -/
structure ManagerResult where
  realTimeUsed : ℚ := 0
  cpuTimeUsed : ℚ := 0
  manualTimeUsed : ℚ := 0
  bytesProcessed : ℤ := 0
  itemsProcessed : ℤ := 0
  complexityN : ℤ := 0
  deriving DecidableEq, Repr

/-- Embedding of the merge section of `RunInThread`: under the manager's
mutex every field of the thread's contribution is added into the shared
result (`+=` on each field, including both time totals). -/
def mergeThread (res : ManagerResult) (t : ThreadResult) : ManagerResult :=
  { res with
    cpuTimeUsed := res.cpuTimeUsed + t.cpuTimeUsed,
    realTimeUsed := res.realTimeUsed + t.realTimeUsed,
    manualTimeUsed := res.manualTimeUsed + t.manualTimeUsed,
    bytesProcessed := res.bytesProcessed + t.bytesProcessed,
    itemsProcessed := res.itemsProcessed + t.itemsProcessed,
    complexityN := res.complexityN + t.complexityN }

/-- Consolidated result of one attempt, after every worker thread has merged
its contribution (the merge order is immaterial for sums). -/
def runAttemptResult (threads : List ThreadResult) : ManagerResult :=
  threads.foldl mergeThread {}

/-- Embedding of the attempt-finalization step of `RunSingleBenchmarkImp`:
`results.real_time_used /= b.threads; results.manual_time_used /= b.threads`. -/
def finalizeAttempt (res : ManagerResult) (numThreads : ℕ) : ManagerResult :=
  { res with realTimeUsed := res.realTimeUsed / numThreads,
             manualTimeUsed := res.manualTimeUsed / numThreads }

lemma runAttempt_fold (threads : List ThreadResult) (init : ManagerResult) :
    (threads.foldl mergeThread init).cpuTimeUsed =
        init.cpuTimeUsed + (threads.map (·.cpuTimeUsed)).sum ∧
      (threads.foldl mergeThread init).realTimeUsed =
        init.realTimeUsed + (threads.map (·.realTimeUsed)).sum ∧
      (threads.foldl mergeThread init).manualTimeUsed =
        init.manualTimeUsed + (threads.map (·.manualTimeUsed)).sum := by
  induction threads generalizing init with
  | nil => simp
  | cons t ts ih =>
    simp only [List.foldl_cons, List.map_cons, List.sum_cons]
    obtain ⟨h1, h2, h3⟩ := ih (mergeThread init t)
    rw [h1, h2, h3]
    simp only [mergeThread]
    refine ⟨by ring, by ring, by ring⟩

/-- C2 counterexample: two threads with real times 1 and 3 (and no CPU or
manual time).  The code's consolidated accumulated real time is their sum 4,
not their maximum 3, and after finalization at thread count 2 it is 2, not
the claim's 3/2. -/
theorem threadMerge_claim_counterexample :
    (runAttemptResult
        [⟨0, 1, 0, 0, 0, 0⟩, ⟨0, 3, 0, 0, 0, 0⟩]).realTimeUsed = 4 ∧
    max (1 : ℚ) 3 = 3 ∧ (4 : ℚ) ≠ 3 ∧
    (finalizeAttempt
        (runAttemptResult [⟨0, 1, 0, 0, 0, 0⟩, ⟨0, 3, 0, 0, 0, 0⟩])
        2).realTimeUsed = 2 ∧
    max (1 : ℚ) 3 / 2 = 3 / 2 ∧ (2 : ℚ) ≠ 3 / 2 := by
  refine ⟨?_, by norm_num, by norm_num, ?_, by norm_num, by norm_num⟩
  · norm_num [runAttemptResult, mergeThread]
  · norm_num [runAttemptResult, finalizeAttempt, mergeThread]

/-- C2 amended: for every completed multi-threaded attempt the consolidated
Result's accumulated CPU time is the sum of the per-thread CPU times, its
accumulated real time is likewise the **sum** (not the maximum) of the
per-thread real times, and at attempt finalization the accumulated real and
manual times are divided by the thread count while the CPU time is left
untouched. -/
theorem threadMerge_spec (threads : List ThreadResult) (numThreads : ℕ) :
    (runAttemptResult threads).cpuTimeUsed =
        (threads.map (·.cpuTimeUsed)).sum ∧
      (runAttemptResult threads).realTimeUsed =
        (threads.map (·.realTimeUsed)).sum ∧
      (finalizeAttempt (runAttemptResult threads) numThreads).realTimeUsed =
        (threads.map (·.realTimeUsed)).sum / numThreads ∧
      (finalizeAttempt (runAttemptResult threads) numThreads).manualTimeUsed =
        (threads.map (·.manualTimeUsed)).sum / numThreads ∧
      (finalizeAttempt (runAttemptResult threads) numThreads).cpuTimeUsed =
        (threads.map (·.cpuTimeUsed)).sum := by
  obtain ⟨h1, h2, h3⟩ := runAttempt_fold threads {}
  have z1 : (runAttemptResult threads).cpuTimeUsed =
      (threads.map (·.cpuTimeUsed)).sum := by
    simpa [runAttemptResult] using h1
  have z2 : (runAttemptResult threads).realTimeUsed =
      (threads.map (·.realTimeUsed)).sum := by
    simpa [runAttemptResult] using h2
  have z3 : (runAttemptResult threads).manualTimeUsed =
      (threads.map (·.manualTimeUsed)).sum := by
    simpa [runAttemptResult] using h3
  exact ⟨z1, z2, by simp [finalizeAttempt, z2], by simp [finalizeAttempt, z3],
    by simp [finalizeAttempt, z1]⟩

end Benchmark

namespace Benchmark

/-- Kinds of structured run records (`"kind"` field of a JSON report). -/
inductive RunKind where
  | normal
  | error
  | statistic
  | complexity
  | comparison
  deriving DecidableEq, Repr, Inhabited

/-- A named reducer from the configured statistics list (`Statistics` in
`statistics.h`): a name suffix and a function over sample vectors. -/
structure Statistics where
  name : String
  compute : List ℚ → ℚ
  deriving Inhabited

/-- Embedding of a structured run record: the scalar fields of the JSON
report that the statistics pass reads and writes.  The optional
`"counters"` member is not carried here; `StatsReport` and
`ComputeStatsImp` below model the full report and the full `ComputeStats`
including the user-counters passes. -/
structure RunRecord where
  name : String
  kind : RunKind
  label : String := ""
  iterations : ℤ
  timeUnit : String := "ns"
  realAccumulatedTime : ℚ := 0
  cpuAccumulatedTime : ℚ := 0
  realIterationTime : ℚ := 0
  cpuIterationTime : ℚ := 0
  deriving DecidableEq, Repr, Inhabited

/-- Embedding of the `count_if` of error-kind reports in `ComputeStats`. -/
def errorCount (reports : List RunRecord) : ℕ :=
  (reports.filter (fun r => decide (r.kind = RunKind.error))).length

/-- Embedding of `ComputeStats` from the statistics engine: return nothing
when fewer than two non-error reports exist, otherwise emit one
`statistic`-kind record per configured reducer, whose time fields are the
reducer applied to the non-error accumulated times, whose iteration count is
the first report's, and whose per-iteration times divide by that count. -/
def ComputeStats (reports : List RunRecord) (stats : List Statistics) :
    List RunRecord :=
  if reports.length - errorCount reports < 2 then []
  else
    let head := reports.headD default
    let runIterations := head.iterations
    let nonError := reports.filter (fun r => !decide (r.kind = RunKind.error))
    let realTimes := nonError.map (fun r => r.realAccumulatedTime)
    let cpuTimes := nonError.map (fun r => r.cpuAccumulatedTime)
    let reportLabel :=
      if reports.all (fun r => decide (r.label = head.label)) then head.label
      else ""
    stats.map (fun S =>
      { name := head.name ++ "_" ++ S.name,
        kind := RunKind.statistic,
        label := reportLabel,
        iterations := runIterations,
        timeUnit := head.timeUnit,
        realAccumulatedTime := S.compute realTimes,
        cpuAccumulatedTime := S.compute cpuTimes,
        realIterationTime := S.compute realTimes / (runIterations : ℚ),
        cpuIterationTime := S.compute cpuTimes / (runIterations : ℚ) })

lemma errorCount_split (reports : List RunRecord) :
    errorCount reports +
      (reports.filter (fun r => !decide (r.kind = RunKind.error))).length =
      reports.length := by
  induction reports with
  | nil => simp [errorCount]
  | cons r rs ih =>
    by_cases h : r.kind = RunKind.error <;>
      simp only [errorCount, List.filter_cons, h] at ih ⊢ <;> simp [h] <;>
      omega

end Benchmark

namespace Benchmark

/-- Sample reducer used by the statistics witnesses: the mean. -/
def sampleStat : Statistics := { name := "mean", compute := StatisticsMean }

/-- Sample normal run record, repetition 0. -/
def sampleRun1 : RunRecord :=
  { name := "bench", kind := RunKind.normal, iterations := 10,
    realAccumulatedTime := 4, cpuAccumulatedTime := 6 }

/-- Sample normal run record, repetition 1 (different iteration count). -/
def sampleRun2 : RunRecord :=
  { name := "bench", kind := RunKind.normal, iterations := 20,
    realAccumulatedTime := 8, cpuAccumulatedTime := 10 }

end Benchmark

namespace Benchmark

/-- C10: every aggregate record carries the iterations value of the first
report in the input list, its per-iteration times are the aggregated
accumulated times divided by that first report's iteration count, and the
iteration counts of later reports are never consulted (rewriting them
arbitrarily leaves the output unchanged). -/
theorem computeStats_iterations_spec (reports : List RunRecord)
    (stats : List Statistics) :
    (∀ rec ∈ ComputeStats reports stats,
      rec.iterations = (reports.headD default).iterations ∧
        rec.realIterationTime =
          rec.realAccumulatedTime /
            (((reports.headD default).iterations : ℤ) : ℚ) ∧
        rec.cpuIterationTime =
          rec.cpuAccumulatedTime /
            (((reports.headD default).iterations : ℤ) : ℚ)) ∧
    (∀ (head : RunRecord) (tail : List RunRecord) (f : RunRecord → ℤ),
      ComputeStats (head :: tail.map (fun r => { r with iterations := f r }))
          stats =
        ComputeStats (head :: tail) stats) := by
  constructor
  · intro rec hrec
    by_cases hguard : reports.length - errorCount reports < 2
    · rw [ComputeStats, if_pos hguard] at hrec
      exact absurd hrec (List.not_mem_nil rec)
    · rw [ComputeStats, if_neg hguard] at hrec
      obtain ⟨S, _, rfl⟩ := List.mem_map.mp hrec
      exact ⟨rfl, rfl, rfl⟩
  · intro head tail f
    have hfilterNeg :
        (tail.map (fun r => { r with iterations := f r })).filter
            (fun r => !decide (r.kind = RunKind.error)) =
          (tail.filter (fun r => !decide (r.kind = RunKind.error))).map
            (fun r => { r with iterations := f r }) := by
      rw [List.filter_map]
      first
      | rfl
      | (congr 1; exact List.filter_congr (fun a _ => rfl))
    have hfilterPos :
        (tail.map (fun r => { r with iterations := f r })).filter
            (fun r => decide (r.kind = RunKind.error)) =
          (tail.filter (fun r => decide (r.kind = RunKind.error))).map
            (fun r => { r with iterations := f r }) := by
      rw [List.filter_map]
      first
      | rfl
      | (congr 1; exact List.filter_congr (fun a _ => rfl))
    have e1 : errorCount
        (head :: tail.map (fun r => { r with iterations := f r })) =
        errorCount (head :: tail) := by
      simp only [errorCount, List.filter_cons, hfilterPos]
      cases hk : decide (head.kind = RunKind.error) <;>
        simp [List.length_map]
    have e2 : (head ::
        tail.map (fun r => { r with iterations := f r })).length =
        (head :: tail).length := by
      simp
    have e3 : ∀ g : RunRecord → ℚ, (∀ r, g { r with iterations := f r } = g r) →
        ((head :: tail.map (fun r => { r with iterations := f r })).filter
            (fun r => !decide (r.kind = RunKind.error))).map g =
          ((head :: tail).filter
            (fun r => !decide (r.kind = RunKind.error))).map g := by
      intro g hg
      simp only [List.filter_cons, hfilterNeg]
      cases hk : (!decide (head.kind = RunKind.error)) <;>
        simp [List.map_map, Function.comp_def, hg]
    have e5 : (head ::
        tail.map (fun r => { r with iterations := f r })).all
          (fun r => decide (r.label = head.label)) =
        (head :: tail).all (fun r => decide (r.label = head.label)) := by
      simp only [List.all_cons, List.all_map, Function.comp_def]
    simp only [ComputeStats, List.headD_cons]
    rw [e1, e2,
      e3 (fun r => r.realAccumulatedTime) (fun r => rfl),
      e3 (fun r => r.cpuAccumulatedTime) (fun r => rfl), e5]

end Benchmark

namespace Benchmark

/-- Aggregate record produced for `[sampleRun1, sampleRun2]` with the mean
reducer. -/
def sampleAgg : RunRecord :=
  { name := "bench_mean", kind := RunKind.statistic, label := "",
    iterations := 10, timeUnit := "ns", realAccumulatedTime := 6,
    cpuAccumulatedTime := 8, realIterationTime := 3 / 5,
    cpuIterationTime := 4 / 5 }

lemma computeStats_sample_eval :
    ComputeStats [sampleRun1, sampleRun2] [sampleStat] = [sampleAgg] := by
  have hne : ¬(RunKind.normal = RunKind.error) := by simp
  simp only [ComputeStats, errorCount, sampleRun1, sampleRun2, sampleStat,
    sampleAgg]
  norm_num [List.filter_cons, hne, StatisticsMean, StatisticsSum]
  rfl

/-- Witness for `computeStats_iterations_spec`: the membership-hypothesised
clause evaluated on a concrete aggregate record. -/
theorem computeStats_iterations_spec_witness :
    sampleAgg.iterations =
      (([sampleRun1, sampleRun2] : List RunRecord).headD default).iterations ∧
    sampleAgg.realIterationTime =
      sampleAgg.realAccumulatedTime /
        (((([sampleRun1, sampleRun2] : List RunRecord).headD
            default).iterations : ℤ) : ℚ) ∧
    sampleAgg.cpuIterationTime =
      sampleAgg.cpuAccumulatedTime /
        (((([sampleRun1, sampleRun2] : List RunRecord).headD
            default).iterations : ℤ) : ℚ) :=
  (computeStats_iterations_spec [sampleRun1, sampleRun2] [sampleStat]).1
    sampleAgg
    (by rw [computeStats_sample_eval]; exact List.mem_singleton_self _)

end Benchmark

namespace Benchmark

/-- Embedding of the `BigO` enum of candidate asymptotic complexities. -/
inductive BigO where
  | oNone
  | o1
  | oN
  | oNSquared
  | oNCubed
  | oLogN
  | oNLogN
  | oAuto
  | oLambda
  deriving DecidableEq, Repr

/-- Embedding of `FittingCurve`, over `ℝ` (`log2` is the real base-2
logarithm; `o1` and every remaining selector give the constant curve, as in
the `default:` case of the source switch). -/
noncomputable def FittingCurve : BigO → ℕ → ℝ
  | BigO.oN => fun n => n
  | BigO.oNSquared => fun n => (n : ℝ) ^ 2
  | BigO.oNCubed => fun n => (n : ℝ) ^ 3
  | BigO.oLogN => fun n => Real.logb 2 n
  | BigO.oNLogN => fun n => n * Real.logb 2 n
  | _ => fun _ => 1

/-- Embedding of `LeastSq`: fitted coefficient, normalized RMS residual and
curve label. -/
structure LeastSq where
  coef : ℝ
  rms : ℝ
  complexity : BigO

/-- Embedding of the curve-level `MinimalLeastSq` overload.  The source
iterates one index over the equally long `n` and `time` vectors; paired
entries are modelled with `zip` (the unused `sigma_gn` accumulator of the
source is dropped). -/
noncomputable def MinimalLeastSq (n : List ℕ) (time : List ℝ)
    (fitting_curve : ℕ → ℝ) : LeastSq :=
  let sigma_gn_squared :=
    (n.map (fun ni => fitting_curve ni * fitting_curve ni)).sum
  let sigma_time := time.sum
  let sigma_time_gn :=
    ((n.zip time).map (fun p => p.2 * fitting_curve p.1)).sum
  let coef := sigma_time_gn / sigma_gn_squared
  let rms :=
    ((n.zip time).map (fun p => (p.2 - coef * fitting_curve p.1) ^ 2)).sum
  let mean := sigma_time / n.length
  { coef := coef, rms := Real.sqrt (rms / n.length) / mean,
    complexity := BigO.oLambda }

open Classical in
/-- Embedding of the `BigO`-level `MinimalLeastSq` overload: the `CHECK`s
(equal lengths, at least two runs, not `oNone`) are modelled as `none`;
a concrete curve is fitted directly, while `oAuto` starts from the `o1`
default and keeps the candidate with strictly smaller RMS. -/
noncomputable def MinimalLeastSqBigO (n : List ℕ) (time : List ℝ)
    (complexity : BigO) : Option LeastSq :=
  if n.length ≠ time.length ∨ n.length < 2 ∨ complexity = BigO.oNone then none
  else if complexity = BigO.oAuto then
    let fit_curves := [BigO.oLogN, BigO.oN, BigO.oNLogN, BigO.oNSquared,
      BigO.oNCubed]
    let best_fit :=
      { MinimalLeastSq n time (FittingCurve BigO.o1) with
        complexity := BigO.o1 }
    some (fit_curves.foldl
      (fun best_fit fit =>
        let current_fit := MinimalLeastSq n time (FittingCurve fit)
        if current_fit.rms < best_fit.rms then
          { current_fit with complexity := fit }
        else best_fit)
      best_fit)
  else
    some { MinimalLeastSq n time (FittingCurve complexity) with
           complexity := complexity }

/-- Fields of one run report consulted by `ComputeBigO`. -/
structure ComplexityInput where
  complexityN : ℕ
  iterations : ℤ
  realAccumulatedTime : ℝ
  cpuAccumulatedTime : ℝ

/-- Complexity report emitted by `ComputeBigO` (its fixed name/kind strings
are omitted). -/
structure BigOReport where
  complexity : BigO
  realTimeCoefficient : ℝ
  cpuTimeCoefficient : ℝ
  rmsRealTime : ℝ
  rmsCpuTime : ℝ

/-- Embedding of `ComputeBigO`: nothing is produced for fewer than two
reports; otherwise each report's accumulated real and CPU times are divided
by its iteration count, the CPU series is fitted first and the real series
reuses the CPU-selected curve (a user lambda is used for both series), and
the RMS values are divided by the time-unit multiplier. -/
noncomputable def ComputeBigO (complexity : BigO) (complexityLambda : ℕ → ℝ)
    (timeUnitMultiplier : ℝ) (reports : List ComplexityInput) :
    Option BigOReport :=
  if reports.length < 2 then none
  else
    let n := reports.map (fun r => r.complexityN)
    let real_time :=
      reports.map (fun r => r.realAccumulatedTime / (r.iterations : ℝ))
    let cpu_time :=
      reports.map (fun r => r.cpuAccumulatedTime / (r.iterations : ℝ))
    if complexity = BigO.oLambda then
      let result_cpu := MinimalLeastSq n cpu_time complexityLambda
      let result_real := MinimalLeastSq n real_time complexityLambda
      some { complexity := result_cpu.complexity,
             realTimeCoefficient := result_real.coef,
             cpuTimeCoefficient := result_cpu.coef,
             rmsRealTime := result_real.rms / timeUnitMultiplier,
             rmsCpuTime := result_cpu.rms / timeUnitMultiplier }
    else
      (MinimalLeastSqBigO n cpu_time complexity).bind fun result_cpu =>
        (MinimalLeastSqBigO n real_time result_cpu.complexity).map
          fun result_real =>
            { complexity := result_cpu.complexity,
              realTimeCoefficient := result_real.coef,
              cpuTimeCoefficient := result_cpu.coef,
              rmsRealTime := result_real.rms / timeUnitMultiplier,
              rmsCpuTime := result_cpu.rms / timeUnitMultiplier }

lemma minimalLeastSq_rms_nonneg (n : List ℕ) (time : List ℝ) (g : ℕ → ℝ)
    (h : 0 ≤ time.sum) : 0 ≤ (MinimalLeastSq n time g).rms := by
  simp only [MinimalLeastSq]
  exact div_nonneg (Real.sqrt_nonneg _) (div_nonneg h (Nat.cast_nonneg _))

end Benchmark

namespace Benchmark

lemma fitN_eval :
    MinimalLeastSq [1, 2, 4, 8] ([3, 6, 12, 24] : List ℝ)
      (FittingCurve BigO.oN) =
      { coef := 3, rms := 0, complexity := BigO.oLambda } := by
  simp only [MinimalLeastSq, FittingCurve, List.zip]
  norm_num

lemma fit1_rms_pos :
    0 < (MinimalLeastSq [1, 2, 4, 8] ([3, 6, 12, 24] : List ℝ)
      (FittingCurve BigO.o1)).rms := by
  simp only [MinimalLeastSq, FittingCurve, List.zip]
  norm_num

lemma fitLog_rms_pos :
    0 < (MinimalLeastSq [1, 2, 4, 8] ([3, 6, 12, 24] : List ℝ)
      (FittingCurve BigO.oLogN)).rms := by
  simp only [MinimalLeastSq, FittingCurve, List.zip]
  simp [Real.logb_one]
  positivity

/-- C4: the complexity engine fits the scale coefficient by the closed form
`c = Σ(time·g(N)) / Σ(g(N)²)` and reports the normalized RMS residual
`sqrt(Σ(time − c·g(N))² / n) / mean(time)`; on synthetic data `time = 3·N`
at `N ∈ {1,2,4,8}`, automatic selection picks the `O(N)` curve with
coefficient exactly 3 and RMS exactly 0. -/
theorem complexity_fit_spec :
    (∀ (n : List ℕ) (time : List ℝ) (g : ℕ → ℝ),
      (MinimalLeastSq n time g).coef =
        ((n.zip time).map (fun p => p.2 * g p.1)).sum /
          (n.map (fun ni => g ni * g ni)).sum ∧
      (MinimalLeastSq n time g).rms =
        Real.sqrt
            (((n.zip time).map (fun p =>
              (p.2 - ((n.zip time).map (fun q => q.2 * g q.1)).sum /
                  (n.map (fun ni => g ni * g ni)).sum * g p.1) ^ 2)).sum /
              n.length) /
          (time.sum / n.length)) ∧
    MinimalLeastSqBigO [1, 2, 4, 8] ([3, 6, 12, 24] : List ℝ) BigO.oAuto =
      some { coef := 3, rms := 0, complexity := BigO.oN } := by
  refine ⟨fun n time g => ⟨rfl, rfl⟩, ?_⟩
  rw [MinimalLeastSqBigO, if_neg (by simp), if_pos rfl]
  simp only [List.foldl_cons, List.foldl_nil]
  rw [fitN_eval]
  have hlog := fitLog_rms_pos
  have h01 := fit1_rms_pos
  have hnn2 : 0 ≤ (MinimalLeastSq [1, 2, 4, 8] ([3, 6, 12, 24] : List ℝ)
      (FittingCurve BigO.oNLogN)).rms :=
    minimalLeastSq_rms_nonneg _ _ _ (by norm_num)
  have hnn3 : 0 ≤ (MinimalLeastSq [1, 2, 4, 8] ([3, 6, 12, 24] : List ℝ)
      (FittingCurve BigO.oNSquared)).rms :=
    minimalLeastSq_rms_nonneg _ _ _ (by norm_num)
  have hnn4 : 0 ≤ (MinimalLeastSq [1, 2, 4, 8] ([3, 6, 12, 24] : List ℝ)
      (FittingCurve BigO.oNCubed)).rms :=
    minimalLeastSq_rms_nonneg _ _ _ (by norm_num)
  set A := MinimalLeastSq [1, 2, 4, 8] ([3, 6, 12, 24] : List ℝ)
    (FittingCurve BigO.oLogN) with hA
  set B := MinimalLeastSq [1, 2, 4, 8] ([3, 6, 12, 24] : List ℝ)
    (FittingCurve BigO.o1) with hB
  set C := MinimalLeastSq [1, 2, 4, 8] ([3, 6, 12, 24] : List ℝ)
    (FittingCurve BigO.oNLogN) with hC
  set D := MinimalLeastSq [1, 2, 4, 8] ([3, 6, 12, 24] : List ℝ)
    (FittingCurve BigO.oNSquared) with hD
  set E := MinimalLeastSq [1, 2, 4, 8] ([3, 6, 12, 24] : List ℝ)
    (FittingCurve BigO.oNCubed) with hE
  dsimp only
  have hs1 : (0 : ℝ) <
      (if A.rms < B.rms then
        ({ coef := A.coef, rms := A.rms, complexity := BigO.oLogN } : LeastSq)
      else
        { coef := B.coef, rms := B.rms, complexity := BigO.o1 }).rms := by
    split_ifs
    · simpa using hlog
    · simpa using h01
  rw [if_pos hs1]
  dsimp only
  rw [if_neg (not_lt.mpr hnn2), if_neg (not_lt.mpr hnn3),
    if_neg (not_lt.mpr hnn4)]

/-- C9: `ComputeBigO` fits the candidate curves against per-iteration
times: dividing each report's accumulated real and CPU times by its own
iteration count (and setting that count to 1) leaves the result unchanged,
for every selector, user lambda and time-unit multiplier. -/
theorem computeBigO_per_iteration_spec (complexity : BigO)
    (complexityLambda : ℕ → ℝ) (timeUnitMultiplier : ℝ)
    (reports : List ComplexityInput) :
    ComputeBigO complexity complexityLambda timeUnitMultiplier reports =
      ComputeBigO complexity complexityLambda timeUnitMultiplier
        (reports.map (fun r =>
          { complexityN := r.complexityN, iterations := 1,
            realAccumulatedTime := r.realAccumulatedTime / (r.iterations : ℝ),
            cpuAccumulatedTime :=
              r.cpuAccumulatedTime / (r.iterations : ℝ) })) := by
  have hn : (reports.map (fun r : ComplexityInput =>
      ({ complexityN := r.complexityN, iterations := 1,
         realAccumulatedTime := r.realAccumulatedTime / (r.iterations : ℝ),
         cpuAccumulatedTime := r.cpuAccumulatedTime / (r.iterations : ℝ) } :
        ComplexityInput))).map (fun r => r.complexityN) =
      reports.map (fun r => r.complexityN) := by
    simp [List.map_map, Function.comp_def]
  have hreal : (reports.map (fun r : ComplexityInput =>
      ({ complexityN := r.complexityN, iterations := 1,
         realAccumulatedTime := r.realAccumulatedTime / (r.iterations : ℝ),
         cpuAccumulatedTime := r.cpuAccumulatedTime / (r.iterations : ℝ) } :
        ComplexityInput))).map
        (fun r => r.realAccumulatedTime / (r.iterations : ℝ)) =
      reports.map (fun r => r.realAccumulatedTime / (r.iterations : ℝ)) := by
    simp [List.map_map, Function.comp_def]
  have hcpu : (reports.map (fun r : ComplexityInput =>
      ({ complexityN := r.complexityN, iterations := 1,
         realAccumulatedTime := r.realAccumulatedTime / (r.iterations : ℝ),
         cpuAccumulatedTime := r.cpuAccumulatedTime / (r.iterations : ℝ) } :
        ComplexityInput))).map
        (fun r => r.cpuAccumulatedTime / (r.iterations : ℝ)) =
      reports.map (fun r => r.cpuAccumulatedTime / (r.iterations : ℝ)) := by
    simp [List.map_map, Function.comp_def]
  simp only [ComputeBigO, List.length_map, hn, hreal, hcpu]

end Benchmark

namespace Benchmark

/-- Embedding of a user `Counter`: its value and its flags bitmask. -/
structure Counter where
  value : ℚ
  flags : ℕ
  deriving DecidableEq, Repr, Inhabited

/-- One entry of the `counter_stats` map of `ComputeStats`: the
representative counter (whose flags later occurrences are checked against)
and the values collected across repetitions. -/
structure CounterStat where
  c : Counter
  s : List ℚ
  deriving DecidableEq, Repr, Inhabited

/-- A JSON run report as consumed by `ComputeStats`, including the optional
`"counters"` member: `none` models a report without the key.  Error-kind
reports built by `CreateRunReport` carry no `"counters"` member (it is only
added inside the `if (!results.has_error_)` block), normal reports always
do. -/
structure StatsReport where
  name : String
  kind : RunKind
  label : String := ""
  iterations : ℤ
  timeUnit : String := "ns"
  realAccumulatedTime : ℚ := 0
  cpuAccumulatedTime : ℚ := 0
  realIterationTime : ℚ := 0
  cpuIterationTime : ℚ := 0
  counters : Option (List (String × Counter)) := none
  deriving DecidableEq, Repr, Inhabited

/-- First counters pass of `ComputeStats` applied to one report's counters
map: unseen names are inserted, seen names have their flags compared by
`CHECK_EQ` (`none` models the failed `CHECK`).  The `std::map` is modelled
as an association list in first-insertion order, which leaves the
key-to-value mapping unchanged. -/
def registerReportCounters (acc : List (String × CounterStat))
    (uc : List (String × Counter)) : Option (List (String × CounterStat)) :=
  uc.foldlM (fun acc cnt =>
    match acc.lookup cnt.1 with
    | none => some (acc ++ [(cnt.1, { c := cnt.2, s := [] })])
    | some st =>
      if st.c.flags = cnt.2.flags then some acc else none) acc

/-- Second counters pass of `ComputeStats` applied to one non-error
report's counters map: every name must already be registered (`CHECK_NE`
models a failed lookup as `none`) and its value is appended to the entry's
sample vector. -/
def accumulateReportCounters (acc : List (String × CounterStat))
    (uc : List (String × Counter)) : Option (List (String × CounterStat)) :=
  uc.foldlM (fun acc cnt =>
    match acc.lookup cnt.1 with
    | none => none
    | some st =>
      some (acc.map (fun p =>
        if p.1 = cnt.1 then (p.1, { st with s := st.s ++ [cnt.2.value] })
        else p))) acc

/-- Embedding of the full `ComputeStats` from the statistics engine,
including both user-counters passes.  The first pass reads
`r.at("counters")` of **every** report, so a report without the member — in
particular every error-kind report — makes the whole call fail (`none`
models the thrown `std::out_of_range`).  Before that pass, fewer than two
non-error reports return an empty aggregate list; after both passes one
`statistic`-kind record is emitted per configured reducer, aggregating the
non-error times and the collected counter values. -/
def ComputeStatsImp (reports : List StatsReport)
    (stats : List Statistics) : Option (List StatsReport) :=
  if reports.length -
      (reports.filter (fun r => decide (r.kind = RunKind.error))).length < 2
  then some []
  else
    let head := reports.headD default
    let runIterations := head.iterations
    (reports.foldlM (fun acc (r : StatsReport) =>
        r.counters.bind (fun uc => registerReportCounters acc uc)) []).bind
      (fun registered =>
        let nonError :=
          reports.filter (fun r => !decide (r.kind = RunKind.error))
        (nonError.foldlM (fun acc (r : StatsReport) =>
            r.counters.bind (fun uc => accumulateReportCounters acc uc))
          registered).map
          (fun counterStats =>
            let realTimes := nonError.map (fun r => r.realAccumulatedTime)
            let cpuTimes := nonError.map (fun r => r.cpuAccumulatedTime)
            let reportLabel :=
              if reports.all (fun r => decide (r.label = head.label)) then
                head.label
              else ""
            stats.map (fun S =>
              { name := head.name ++ "_" ++ S.name,
                kind := RunKind.statistic,
                label := reportLabel,
                iterations := runIterations,
                timeUnit := head.timeUnit,
                realAccumulatedTime := S.compute realTimes,
                cpuAccumulatedTime := S.compute cpuTimes,
                realIterationTime :=
                  S.compute realTimes / (runIterations : ℚ),
                cpuIterationTime :=
                  S.compute cpuTimes / (runIterations : ℚ),
                counters := some (counterStats.map (fun p =>
                  (p.1, { value := S.compute p.2.s,
                          flags := p.2.c.flags }))) })))

/-- Error-kind report as `CreateRunReport` builds it: no `"counters"`
member. -/
def sampleErrImp : StatsReport :=
  { name := "bench", kind := RunKind.error, iterations := 1,
    counters := none }

/-- Normal report, repetition 0, with its (empty) `"counters"` member. -/
def sampleRun1Imp : StatsReport :=
  { name := "bench", kind := RunKind.normal, iterations := 10,
    realAccumulatedTime := 4, cpuAccumulatedTime := 6, counters := some [] }

/-- Normal report, repetition 1, with its (empty) `"counters"` member. -/
def sampleRun2Imp : StatsReport :=
  { name := "bench", kind := RunKind.normal, iterations := 20,
    realAccumulatedTime := 8, cpuAccumulatedTime := 10,
    counters := some [] }

/-- C5 (code bug): the guard behaves as the claim says — fewer than two
non-error reports produce no aggregates, and an error-free pair produces
exactly one record per configured reducer — but on a mixed list with two
non-error records and one error record the first counters pass reads the
absent `"counters"` member of the error report and the whole computation
fails (`none`, a thrown `std::out_of_range`) instead of producing one
aggregate record per reducer over the non-error records. -/
theorem computeStats_counters_bug :
    ComputeStatsImp [sampleErrImp, sampleRun1Imp] [sampleStat] = some [] ∧
    (ComputeStatsImp [sampleRun1Imp, sampleRun2Imp] [sampleStat]).map
        List.length = some 1 ∧
    2 ≤ (([sampleErrImp, sampleRun1Imp, sampleRun2Imp] :
        List StatsReport).filter
          (fun r => !decide (r.kind = RunKind.error))).length ∧
    ComputeStatsImp [sampleErrImp, sampleRun1Imp, sampleRun2Imp]
      [sampleStat] = none := by
  have hne : ¬(RunKind.normal = RunKind.error) := by simp
  refine ⟨?_, ?_, ?_, ?_⟩
  · simp [ComputeStatsImp, sampleErrImp, sampleRun1Imp, List.filter_cons, hne]
  · simp [ComputeStatsImp, registerReportCounters, accumulateReportCounters,
      sampleRun1Imp, sampleRun2Imp, List.filter_cons, hne]
  · simp [sampleErrImp, sampleRun1Imp, sampleRun2Imp, List.filter_cons, hne]
  · simp [ComputeStatsImp, registerReportCounters, accumulateReportCounters,
      sampleErrImp, sampleRun1Imp, sampleRun2Imp, List.filter_cons, hne]

end Benchmark
